import Mathlib

/-!
Shallow embedding of the state-normalization and game-transition core of
the Github-Wars battle-royale script (src/game.js), together with proofs
checking the natural-language specification against the code.

The embedded functions are normalizeState (with its inner helper
addUnique), addPlayer, runGameTick and resetSeason. Logging calls are
omitted (they do not touch the state), and the deferred
setTimeout-scheduled resetSeason inside runGameTick is not part of the
synchronous state transition that runGameTick performs on its argument.
The random draw Math.floor(Math.random() * len), which always lands in
the interval from 0 to len - 1, is modelled by r % len for an arbitrary
natural seed r.
-/

namespace GithubWars

/-- A decoded JSON-like value, the input type of normalizeState.
The constructor numOther stands for a non-integral JSON number; the
program only ever tests numbers with Number.isInteger, so the value of a
non-integral number is never read. -/
inductive RawValue where
  | null
  | bool (b : Bool)
  | num (i : Int)
  | numOther
  | str (s : String)
  | arr (elems : List RawValue)
  | obj (fields : List (String × RawValue))

/-- The game state persisted in players.json, with exactly the fields
produced by createDefaultState and normalizeState in src/game.js.
The JS values null and a string for winner and lastTick are modelled by
Option String. -/
structure GameState where
  season : Int
  gameStarted : Bool
  alivePlayers : List String
  eliminatedPlayers : List String
  winner : Option String
  lastEvent : String
  lastTick : Option String
deriving DecidableEq

/-- Field access state.key on the decoded value: a named field lookup
yields a value only on objects (JS field access on arrays, null or
primitives yields undefined for these names; normalizeState replaces a
non-object rawState by the empty object first). -/
def getField (v : RawValue) (key : String) : Option RawValue :=
  match v with
  | .obj fields => (fields.find? (fun kv => kv.1 == key)).map (fun kv => kv.2)
  | _ => none

/-- The list stored under a key when it is an array, else the empty list
(the Array.isArray guard in normalizeState). -/
def rawListField (v : RawValue) (key : String) : List RawValue :=
  match getField v key with
  | some (.arr elems) => elems
  | _ => []

/-- The addUnique closure of normalizeState: push a value onto the list
when it is a truthy string (so the empty string is skipped) that is not
already present. -/
def addUnique (list : List String) (value : RawValue) : List String :=
  match value with
  | .str s => if s = "" then list else if s ∈ list then list else list ++ [s]
  | _ => list

/-- Default lastEvent text from createDefaultState. -/
def defaultLastEvent : String := "Waiting for players to join..."

/-- The season field of the normalized state: kept when it is a positive
integer number, else the default 1. -/
def normSeason (v : RawValue) : Int :=
  match getField v ("season") with
  | some (.num i) => if 0 < i then i else 1
  | _ => 1

/-- The gameStarted field of the normalized state: kept when boolean,
else false. -/
def normGameStarted (v : RawValue) : Bool :=
  match getField v ("gameStarted") with
  | some (.bool b) => b
  | _ => false

/-- The winner field before the membership check: kept when it is a
string, else null. -/
def normWinnerRaw (v : RawValue) : Option String :=
  match getField v ("winner") with
  | some (.str w) => some w
  | _ => none

/-- The lastEvent field of the normalized state: kept when it is a
string, else the default text. -/
def normLastEvent (v : RawValue) : String :=
  match getField v ("lastEvent") with
  | some (.str e) => e
  | _ => defaultLastEvent

/-- The lastTick field of the normalized state: kept when it is a string;
null and every other value become null. -/
def normLastTick (v : RawValue) : Option String :=
  match getField v ("lastTick") with
  | some (.str t) => some t
  | _ => none

/-- The eliminatedPlayers list of the normalized state: the stored array
folded through addUnique. -/
def normEliminated (v : RawValue) : List String :=
  (rawListField v ("eliminatedPlayers")).foldl addUnique []

/-- The alivePlayers list of the normalized state: the stored array
folded through addUnique, then, when both lists are nonempty, filtered to
drop the players present in eliminatedPlayers. -/
def normAlive (v : RawValue) : List String :=
  let alive0 := (rawListField v ("alivePlayers")).foldl addUnique []
  let elim := normEliminated v
  if 0 < elim.length ∧ 0 < alive0.length then
    alive0.filter (fun p => !elim.contains p)
  else
    alive0

/-- The winner field of the normalized state: a truthy stored winner that
is not in the normalized alivePlayers list is cleared to null (note the
JS truthiness test skips the clearing for the empty string). -/
def normWinner (v : RawValue) : Option String :=
  match normWinnerRaw v with
  | some w => if w ≠ "" ∧ w ∉ normAlive v then none else some w
  | none => none

/-- normalizeState from src/game.js as a total function on decoded
values. -/
def normalizeState (v : RawValue) : GameState :=
  { season := normSeason v
    gameStarted := normGameStarted v
    alivePlayers := normAlive v
    eliminatedPlayers := normEliminated v
    winner := normWinner v
    lastEvent := normLastEvent v
    lastTick := normLastTick v }

/-- The JSON object a GameState is serialized as, used to feed a state
back into normalizeState. -/
def stateToRaw (s : GameState) : RawValue :=
  .obj
    [ (("season"), .num s.season)
    , (("gameStarted"), .bool s.gameStarted)
    , (("alivePlayers"), .arr (s.alivePlayers.map .str))
    , (("eliminatedPlayers"), .arr (s.eliminatedPlayers.map .str))
    , (("winner"), match s.winner with | some w => .str w | none => .null)
    , (("lastEvent"), .str s.lastEvent)
    , (("lastTick"), match s.lastTick with | some t => .str t | none => .null) ]

/-- The rejection condition of addPlayer: the game is underway with more
than one living player, or the username is already alive, or it was
already eliminated this season. -/
def joinRejected (s : GameState) (username : String) : Prop :=
  (s.gameStarted = true ∧ 1 < s.alivePlayers.length) ∨
    username ∈ s.alivePlayers ∨ username ∈ s.eliminatedPlayers

instance (s : GameState) (u : String) : Decidable (joinRejected s u) := by
  unfold joinRejected
  infer_instance

/-- addPlayer from src/game.js: the returned Bool is the JS return value
(true when the player was added). -/
def addPlayer (s : GameState) (username : String) : GameState × Bool :=
  if s.gameStarted = true ∧ 1 < s.alivePlayers.length then
    ({ s with lastEvent := username ++ (" tried to join, but the game has already started!") }, false)
  else if username ∈ s.alivePlayers then
    ({ s with lastEvent := username ++ (" tried to join again, but they're already in the game!") }, false)
  else if username ∈ s.eliminatedPlayers then
    ({ s with lastEvent := username ++ (" tried to rejoin, but they were already eliminated this season!") }, false)
  else if 2 ≤ (s.alivePlayers ++ [username]).length ∧ s.gameStarted = false then
    ({ s with alivePlayers := s.alivePlayers ++ [username]
              gameStarted := true
              lastEvent := ("🎮 ") ++ username ++ (" has joined! The battle has begun with ")
                ++ toString (s.alivePlayers ++ [username]).length ++ (" players!") }, true)
  else
    ({ s with alivePlayers := s.alivePlayers ++ [username]
              lastEvent := ("🎮 ") ++ username ++ (" has joined the battle!") }, true)

/-- The winner branch of runGameTick, taken when exactly one player is
alive at the start of the tick: the survivor becomes the winner and
nothing else changes (the season cleanup is only scheduled, not part of
this synchronous transition). -/
def tickWin (s : GameState) : GameState :=
  { s with winner := some s.alivePlayers.headI
           lastEvent := ("👑 ") ++ s.alivePlayers.headI ++ (" is the winner of Season ")
             ++ toString s.season ++ ("!") }

/-- The elimination branch of runGameTick: remove the drawn player from
alivePlayers, append it to eliminatedPlayers, and when exactly one player
is left declare it the winner within the same tick (the two successive JS
assignments to the state are flattened into one record per branch). -/
def tickEliminate (r : Nat) (s : GameState) : GameState :=
  if (s.alivePlayers.eraseIdx (r % s.alivePlayers.length)).length = 1 then
    { s with alivePlayers := s.alivePlayers.eraseIdx (r % s.alivePlayers.length)
             eliminatedPlayers :=
               s.eliminatedPlayers ++ [s.alivePlayers.getD (r % s.alivePlayers.length) ("")]
             winner := some (s.alivePlayers.eraseIdx (r % s.alivePlayers.length)).headI
             lastEvent := ("💀 ") ++ s.alivePlayers.getD (r % s.alivePlayers.length) ("")
               ++ (" has been eliminated!\n👑 ")
               ++ (s.alivePlayers.eraseIdx (r % s.alivePlayers.length)).headI
               ++ (" is the winner of Season ") ++ toString s.season ++ ("!") }
  else
    { s with alivePlayers := s.alivePlayers.eraseIdx (r % s.alivePlayers.length)
             eliminatedPlayers :=
               s.eliminatedPlayers ++ [s.alivePlayers.getD (r % s.alivePlayers.length) ("")]
             lastEvent := ("💀 ") ++ s.alivePlayers.getD (r % s.alivePlayers.length) ("")
               ++ (" has been eliminated! ")
               ++ toString (s.alivePlayers.eraseIdx (r % s.alivePlayers.length)).length
               ++ (" players remain.") }

/-- runGameTick from src/game.js, with the random draw modelled by the
seed r (the drawn index is r % alivePlayers.length, always a valid
index). -/
def runGameTick (r : Nat) (s : GameState) : GameState :=
  if s.gameStarted = false ∨ s.alivePlayers.length = 0 then s
  else if s.alivePlayers.length = 1 then tickWin s
  else tickEliminate r s

/-- resetSeason from src/game.js. It does not touch lastTick. -/
def resetSeason (s : GameState) : GameState :=
  { season := s.season + 1
    gameStarted := false
    alivePlayers := []
    eliminatedPlayers := []
    winner := none
    lastEvent := ("Season ") ++ toString (s.season + 1) ++ (" is ready! Open an issue to join the battle!")
    lastTick := s.lastTick }

/-- One inbound operation on the state: a join request with a username, a
scheduled tick carrying its random seed, or a season reset. -/
inductive Op where
  | join (username : String)
  | tick (r : Nat)
  | reset

/-- Apply one operation. -/
def applyOp (s : GameState) (op : Op) : GameState :=
  match op with
  | .join u => (addPlayer s u).1
  | .tick r => runGameTick r s
  | .reset => resetSeason s

/-- Apply a sequence of operations from left to right. -/
def applyOps (s : GameState) (ops : List Op) : GameState :=
  ops.foldl applyOp s

/-- Modelled from the spec (section 4.1, step 2), for comparison with the
code: the string-typed entries of a raw list that survive the addUnique
filter, in order. The spec says every string-typed value is kept; the
code additionally drops the empty string, so this definition keeps
exactly the nonempty strings, matching the amended claim C9. -/
def specNonEmptyStrings (l : List RawValue) : List String :=
  l.filterMap (fun v =>
    match v with
    | .str s => if s = "" then none else some s
    | _ => none)

/-- One step of first-occurrence deduplication. -/
def pushUnique (acc : List String) (s : String) : List String :=
  if s ∈ acc then acc else acc ++ [s]

/-- Modelled from the spec (section 4.1, step 2): deduplication keeping
the first occurrence of each entry. -/
def specDedupFirst (l : List String) : List String :=
  l.foldl pushUnique []

lemma foldl_addUnique_eq (l : List RawValue) (acc : List String) :
    l.foldl addUnique acc = (specNonEmptyStrings l).foldl pushUnique acc := by
  induction l generalizing acc with
  | nil => rfl
  | cons v t ih =>
    cases v with
    | str s =>
      by_cases hs : s = ""
      · simp [addUnique, specNonEmptyStrings, hs, ih]
      · simp only [List.foldl_cons, addUnique, specNonEmptyStrings, List.filterMap_cons,
          if_neg hs]
        rw [ih]
        rfl
    | null => simpa [addUnique, specNonEmptyStrings] using ih acc
    | bool b => simpa [addUnique, specNonEmptyStrings] using ih acc
    | num i => simpa [addUnique, specNonEmptyStrings] using ih acc
    | numOther => simpa [addUnique, specNonEmptyStrings] using ih acc
    | arr elems => simpa [addUnique, specNonEmptyStrings] using ih acc
    | obj fields => simpa [addUnique, specNonEmptyStrings] using ih acc

lemma mem_foldl_pushUnique (l : List String) (acc : List String) (a : String) :
    a ∈ l.foldl pushUnique acc ↔ a ∈ acc ∨ a ∈ l := by
  induction l generalizing acc with
  | nil => simp
  | cons b t ih =>
    simp only [List.foldl_cons, pushUnique, ih, List.mem_cons]
    split_ifs with hb
    · constructor
      · rintro (h | h)
        · exact Or.inl h
        · exact Or.inr (Or.inr h)
      · rintro (h | h | h)
        · exact Or.inl h
        · exact Or.inl (h ▸ hb)
        · exact Or.inr h
    · simp only [List.mem_append, List.mem_singleton]
      tauto

lemma nodup_foldl_pushUnique (l : List String) (acc : List String) (h : acc.Nodup) :
    (l.foldl pushUnique acc).Nodup := by
  induction l generalizing acc with
  | nil => exact h
  | cons b t ih =>
    simp only [List.foldl_cons, pushUnique]
    split_ifs with hb
    · exact ih acc h
    · refine ih _ (List.nodup_append.mpr ⟨h, List.nodup_singleton b, ?_⟩)
      intro a ha hu
      rw [List.mem_singleton] at hu
      exact hb (hu ▸ ha)

lemma foldl_pushUnique_of_nodup (l : List String) (acc : List String)
    (h : (acc ++ l).Nodup) : l.foldl pushUnique acc = acc ++ l := by
  induction l generalizing acc with
  | nil => simp
  | cons b t ih =>
    have hb : b ∉ acc := by
      intro hmem
      have := List.nodup_append.mp h
      exact this.2.2 hmem (List.mem_cons_self b t)
    simp only [List.foldl_cons, pushUnique, if_neg hb]
    rw [ih (acc ++ [b]) (by simpa using h)]
    simp

lemma specNonEmptyStrings_map_str (l : List String) (h : ∀ a ∈ l, a ≠ "") :
    specNonEmptyStrings (l.map RawValue.str) = l := by
  induction l with
  | nil => rfl
  | cons a t ih =>
    have ha : a ≠ "" := h a (List.mem_cons_self a t)
    simp only [List.map_cons, specNonEmptyStrings, List.filterMap_cons, if_neg ha]
    rw [show List.filterMap _ (t.map RawValue.str) = specNonEmptyStrings (t.map RawValue.str) from rfl,
      ih (fun a ha' => h a (List.mem_cons_of_mem _ ha'))]

lemma mem_specNonEmptyStrings_ne_empty (l : List RawValue) (a : String)
    (h : a ∈ specNonEmptyStrings l) : a ≠ "" := by
  rw [specNonEmptyStrings, List.mem_filterMap] at h
  obtain ⟨v, _, hv⟩ := h
  cases v with
  | str s =>
    simp only at hv
    split_ifs at hv with hs
    rw [Option.some_inj] at hv
    exact hv ▸ hs
  | null => simp at hv
  | bool b => simp at hv
  | num i => simp at hv
  | numOther => simp at hv
  | arr elems => simp at hv
  | obj fields => simp at hv

lemma normEliminated_eq (v : RawValue) :
    normEliminated v =
      specDedupFirst (specNonEmptyStrings (rawListField v ("eliminatedPlayers"))) := by
  rw [normEliminated, specDedupFirst, foldl_addUnique_eq]

lemma normAlive_eq (v : RawValue) :
    normAlive v =
      (specDedupFirst (specNonEmptyStrings (rawListField v ("alivePlayers")))).filter
        (fun p => !(normEliminated v).contains p) := by
  rw [normAlive]
  simp only [foldl_addUnique_eq]
  rw [show (specNonEmptyStrings (rawListField v ("alivePlayers"))).foldl pushUnique [] =
    specDedupFirst (specNonEmptyStrings (rawListField v ("alivePlayers"))) from rfl]
  split_ifs with h
  · rfl
  · rw [Classical.not_and_iff_or_not_not] at h
    rcases h with h | h
    · have : normEliminated v = [] := List.length_eq_zero.mp (by omega)
      rw [this]
      simp
    · have : specDedupFirst (specNonEmptyStrings (rawListField v ("alivePlayers"))) = [] :=
        List.length_eq_zero.mp (by omega)
      rw [this]
      simp

lemma specDedupFirst_nodup (l : List String) : (specDedupFirst l).Nodup :=
  nodup_foldl_pushUnique l [] List.nodup_nil

lemma mem_specDedupFirst (l : List String) (a : String) :
    a ∈ specDedupFirst l ↔ a ∈ l := by
  rw [specDedupFirst, mem_foldl_pushUnique]
  simp

lemma normEliminated_nodup (v : RawValue) : (normEliminated v).Nodup := by
  rw [normEliminated_eq]
  exact specDedupFirst_nodup _

lemma normAlive_nodup (v : RawValue) : (normAlive v).Nodup := by
  rw [normAlive_eq]
  exact (specDedupFirst_nodup _).filter _

lemma normAlive_not_mem_eliminated (v : RawValue) :
    ∀ a ∈ normAlive v, a ∉ normEliminated v := by
  intro a ha
  rw [normAlive_eq] at ha
  have := List.of_mem_filter ha
  simpa using this

lemma normAlive_ne_empty (v : RawValue) : ∀ a ∈ normAlive v, a ≠ "" := by
  intro a ha
  rw [normAlive_eq] at ha
  have := List.mem_of_mem_filter ha
  rw [mem_specDedupFirst] at this
  exact mem_specNonEmptyStrings_ne_empty _ a this

lemma normEliminated_ne_empty (v : RawValue) : ∀ a ∈ normEliminated v, a ≠ "" := by
  intro a ha
  rw [normEliminated_eq, mem_specDedupFirst] at ha
  exact mem_specNonEmptyStrings_ne_empty _ a ha

lemma normSeason_pos (v : RawValue) : 0 < normSeason v := by
  rw [normSeason]
  cases h : getField v ("season") with
  | none => exact Int.one_pos
  | some w =>
    cases w with
    | num i =>
      show 0 < if 0 < i then i else (1 : Int)
      split_ifs with hi <;> omega
    | null => exact Int.one_pos
    | bool b => exact Int.one_pos
    | numOther => exact Int.one_pos
    | str s => exact Int.one_pos
    | arr elems => exact Int.one_pos
    | obj fields => exact Int.one_pos

lemma normWinner_cases (v : RawValue) :
    normWinner v = none ∨ normWinner v = some ("") ∨
      ∃ w, normWinner v = some w ∧ w ∈ normAlive v := by
  rw [normWinner]
  rcases normWinnerRaw v with _ | w
  · exact Or.inl rfl
  · simp only
    split_ifs with h
    · exact Or.inl rfl
    · rw [Classical.not_and_iff_or_not_not, not_not, not_not] at h
      rcases h with h | h
      · exact Or.inr (Or.inl (by rw [h]))
      · exact Or.inr (Or.inr ⟨w, rfl, h⟩)

lemma normSeason_stateToRaw (s : GameState) :
    normSeason (stateToRaw s) = if 0 < s.season then s.season else 1 := rfl

lemma normGameStarted_stateToRaw (s : GameState) :
    normGameStarted (stateToRaw s) = s.gameStarted := rfl

lemma normLastEvent_stateToRaw (s : GameState) :
    normLastEvent (stateToRaw s) = s.lastEvent := rfl

lemma normWinnerRaw_stateToRaw (s : GameState) :
    normWinnerRaw (stateToRaw s) = s.winner := by
  rcases s with ⟨se, g, al, el, w, le, lt⟩
  cases w <;> rfl

lemma normLastTick_stateToRaw (s : GameState) :
    normLastTick (stateToRaw s) = s.lastTick := by
  rcases s with ⟨se, g, al, el, w, le, lt⟩
  cases lt <;> rfl

lemma rawListField_stateToRaw_alive (s : GameState) :
    rawListField (stateToRaw s) ("alivePlayers") = s.alivePlayers.map RawValue.str := rfl

lemma rawListField_stateToRaw_eliminated (s : GameState) :
    rawListField (stateToRaw s) ("eliminatedPlayers") = s.eliminatedPlayers.map RawValue.str := rfl

lemma normEliminated_stateToRaw (s : GameState) (hn : s.eliminatedPlayers.Nodup)
    (he : ∀ a ∈ s.eliminatedPlayers, a ≠ "") :
    normEliminated (stateToRaw s) = s.eliminatedPlayers := by
  rw [normEliminated_eq, rawListField_stateToRaw_eliminated,
    specNonEmptyStrings_map_str _ he, specDedupFirst,
    foldl_pushUnique_of_nodup _ _ (by simpa using hn)]
  simp

lemma normAlive_stateToRaw (s : GameState) (hn : s.alivePlayers.Nodup)
    (he : ∀ a ∈ s.alivePlayers, a ≠ "")
    (hen : s.eliminatedPlayers.Nodup)
    (hee : ∀ a ∈ s.eliminatedPlayers, a ≠ "")
    (hd : ∀ a ∈ s.alivePlayers, a ∉ s.eliminatedPlayers) :
    normAlive (stateToRaw s) = s.alivePlayers := by
  rw [normAlive_eq, rawListField_stateToRaw_alive,
    specNonEmptyStrings_map_str _ he, specDedupFirst,
    foldl_pushUnique_of_nodup _ _ (by simpa using hn),
    List.nil_append, normEliminated_stateToRaw s hen hee]
  refine List.filter_eq_self.mpr ?_
  intro a ha
  simpa using hd a ha

lemma addPlayer_season (s : GameState) (u : String) :
    (addPlayer s u).1.season = s.season := by
  unfold addPlayer
  split_ifs <;> rfl

lemma addPlayer_eliminated (s : GameState) (u : String) :
    (addPlayer s u).1.eliminatedPlayers = s.eliminatedPlayers := by
  unfold addPlayer
  split_ifs <;> rfl

lemma addPlayer_winner (s : GameState) (u : String) :
    (addPlayer s u).1.winner = s.winner := by
  unfold addPlayer
  split_ifs <;> rfl

lemma addPlayer_lastTick (s : GameState) (u : String) :
    (addPlayer s u).1.lastTick = s.lastTick := by
  unfold addPlayer
  split_ifs <;> rfl

lemma addPlayer_snd_false_iff (s : GameState) (u : String) :
    (addPlayer s u).2 = false ↔ joinRejected s u := by
  unfold addPlayer joinRejected
  split_ifs with h1 h2 h3 h4
  · simp [h1]
  · simp [h2]
  · simp [h3]
  · simp [h1, h2, h3]
  · simp [h1, h2, h3]

lemma addPlayer_alive_rejected (s : GameState) (u : String) (h : joinRejected s u) :
    (addPlayer s u).1.alivePlayers = s.alivePlayers := by
  unfold addPlayer
  unfold joinRejected at h
  split_ifs with h1 h2 h3 h4 <;> first | rfl | tauto

lemma addPlayer_started_rejected (s : GameState) (u : String) (h : joinRejected s u) :
    (addPlayer s u).1.gameStarted = s.gameStarted := by
  unfold addPlayer
  unfold joinRejected at h
  split_ifs with h1 h2 h3 h4 <;> first | rfl | tauto

lemma addPlayer_alive_accepted (s : GameState) (u : String) (h : ¬ joinRejected s u) :
    (addPlayer s u).1.alivePlayers = s.alivePlayers ++ [u] := by
  unfold addPlayer
  unfold joinRejected at h
  split_ifs with h1 h2 h3 h4 <;> first | rfl | tauto

lemma addPlayer_snd_true (s : GameState) (u : String) (h : ¬ joinRejected s u) :
    (addPlayer s u).2 = true := by
  unfold addPlayer
  unfold joinRejected at h
  split_ifs with h1 h2 h3 h4 <;> first | rfl | tauto

lemma addPlayer_started_accepted (s : GameState) (u : String) (h : ¬ joinRejected s u) :
    (addPlayer s u).1.gameStarted = (s.gameStarted || !s.alivePlayers.isEmpty) := by
  unfold addPlayer
  unfold joinRejected at h
  split_ifs with h1 h2 h3 h4
  · tauto
  · tauto
  · tauto
  · obtain ⟨hlen, hg⟩ := h4
    rw [List.length_append, List.length_singleton] at hlen
    show true = (s.gameStarted || !s.alivePlayers.isEmpty)
    rw [hg]
    cases hl : s.alivePlayers with
    | nil => rw [hl] at hlen; simp at hlen
    | cons a t => simp
  · show s.gameStarted = (s.gameStarted || !s.alivePlayers.isEmpty)
    rw [Classical.not_and_iff_or_not_not] at h4
    rcases h4 with h4 | h4
    · rw [List.length_append, List.length_singleton] at h4
      have hz : s.alivePlayers.length = 0 := by omega
      rw [List.length_eq_zero.mp hz]
      simp
    · have hg : s.gameStarted = true := by
        cases hgs : s.gameStarted
        · exact absurd hgs h4
        · rfl
      rw [hg]
      simp

lemma tickWin_alive (s : GameState) : (tickWin s).alivePlayers = s.alivePlayers := rfl

lemma tickWin_eliminated (s : GameState) :
    (tickWin s).eliminatedPlayers = s.eliminatedPlayers := rfl

lemma tickWin_started (s : GameState) : (tickWin s).gameStarted = s.gameStarted := rfl

lemma tickWin_winner (s : GameState) : (tickWin s).winner = some s.alivePlayers.headI := rfl

lemma tickEliminate_alive (r : Nat) (s : GameState) :
    (tickEliminate r s).alivePlayers =
      s.alivePlayers.eraseIdx (r % s.alivePlayers.length) := by
  unfold tickEliminate
  split <;> rfl

lemma tickEliminate_eliminated (r : Nat) (s : GameState) :
    (tickEliminate r s).eliminatedPlayers =
      s.eliminatedPlayers ++ [s.alivePlayers.getD (r % s.alivePlayers.length) ("")] := by
  unfold tickEliminate
  split <;> rfl

lemma tickEliminate_started (r : Nat) (s : GameState) :
    (tickEliminate r s).gameStarted = s.gameStarted := by
  unfold tickEliminate
  split <;> rfl

lemma tickEliminate_season (r : Nat) (s : GameState) :
    (tickEliminate r s).season = s.season := by
  unfold tickEliminate
  split <;> rfl

lemma tickEliminate_lastTick (r : Nat) (s : GameState) :
    (tickEliminate r s).lastTick = s.lastTick := by
  unfold tickEliminate
  split <;> rfl

lemma tickEliminate_winner (r : Nat) (s : GameState) :
    (tickEliminate r s).winner =
      if (s.alivePlayers.eraseIdx (r % s.alivePlayers.length)).length = 1 then
        some (s.alivePlayers.eraseIdx (r % s.alivePlayers.length)).headI
      else s.winner := by
  unfold tickEliminate
  split_ifs with h <;> simp_all

lemma runGameTick_noop (r : Nat) (s : GameState)
    (h : s.gameStarted = false ∨ s.alivePlayers.length = 0) : runGameTick r s = s := by
  unfold runGameTick
  rw [if_pos h]

lemma runGameTick_win (r : Nat) (s : GameState) (h1 : s.gameStarted = true)
    (h2 : s.alivePlayers.length = 1) : runGameTick r s = tickWin s := by
  have hg : ¬ (s.gameStarted = false ∨ s.alivePlayers.length = 0) := by
    rintro (hc | hc)
    · rw [h1] at hc
      exact Bool.noConfusion hc
    · omega
  unfold runGameTick
  rw [if_neg hg, if_pos h2]

lemma runGameTick_elim (r : Nat) (s : GameState) (h1 : s.gameStarted = true)
    (h2 : 2 ≤ s.alivePlayers.length) : runGameTick r s = tickEliminate r s := by
  have hg : ¬ (s.gameStarted = false ∨ s.alivePlayers.length = 0) := by
    rintro (hc | hc)
    · rw [h1] at hc
      exact Bool.noConfusion hc
    · omega
  have hone : ¬ s.alivePlayers.length = 1 := by omega
  unfold runGameTick
  rw [if_neg hg, if_neg hone]

lemma runGameTick_started (r : Nat) (s : GameState) :
    (runGameTick r s).gameStarted = s.gameStarted := by
  unfold runGameTick
  split_ifs with h1 h2
  · rfl
  · exact tickWin_started s
  · exact tickEliminate_started r s

lemma runGameTick_season (r : Nat) (s : GameState) :
    (runGameTick r s).season = s.season := by
  unfold runGameTick
  split_ifs with h1 h2
  · rfl
  · rfl
  · exact tickEliminate_season r s

lemma runGameTick_lastTick (r : Nat) (s : GameState) :
    (runGameTick r s).lastTick = s.lastTick := by
  unfold runGameTick
  split_ifs with h1 h2
  · rfl
  · rfl
  · exact tickEliminate_lastTick r s

lemma getD_mem_of_lt (l : List String) (i : Nat) (h : i < l.length) : l.getD i ("") ∈ l := by
  rw [List.getD_eq_getElem l ("") h]
  exact List.getElem_mem h

lemma getD_not_mem_eraseIdx (l : List String) (i : Nat) (hi : i < l.length)
    (h : l.Nodup) : l.getD i ("") ∉ l.eraseIdx i := by
  induction l generalizing i with
  | nil => simp at hi
  | cons a t ih =>
    cases i with
    | zero =>
      simp only [List.getD_cons_zero, List.eraseIdx_cons_zero]
      exact (List.nodup_cons.mp h).1
    | succ i =>
      simp only [List.getD_cons_succ, List.eraseIdx_cons_succ, List.mem_cons]
      rintro (hc | hc)
      · have hmem : t.getD i ("") ∈ t :=
          getD_mem_of_lt t i (by simpa using hi)
        exact (List.nodup_cons.mp h).1 (hc ▸ hmem)
      · exact ih i (by simpa using hi) (List.nodup_cons.mp h).2 hc

/-- The list part of the state invariant: both lists are duplicate-free
and no player is both alive and eliminated. -/
def ListsOk (s : GameState) : Prop :=
  s.alivePlayers.Nodup ∧ s.eliminatedPlayers.Nodup ∧
    ∀ a ∈ s.alivePlayers, a ∉ s.eliminatedPlayers

/-- The winner part of the inductive invariant: when a winner is recorded
it is still alive, the game flag is still set, and at most two players
are alive (the code only ever records a winner when one player remains,
and a started game with two or more alive players rejects every join). -/
def WinnerOk (s : GameState) : Prop :=
  s.winner = none ∨
    ∃ w, s.winner = some w ∧ w ∈ s.alivePlayers ∧ s.gameStarted = true ∧
      s.alivePlayers.length ≤ 2

lemma listsOk_addPlayer (s : GameState) (u : String) (h : ListsOk s) :
    ListsOk ((addPlayer s u).1) := by
  obtain ⟨ha, he, hd⟩ := h
  by_cases hr : joinRejected s u
  · refine ⟨?_, ?_, ?_⟩
    · rw [addPlayer_alive_rejected s u hr]
      exact ha
    · rw [addPlayer_eliminated]
      exact he
    · rw [addPlayer_alive_rejected s u hr, addPlayer_eliminated]
      exact hd
  · have hu1 : u ∉ s.alivePlayers := fun hc => hr (Or.inr (Or.inl hc))
    have hu2 : u ∉ s.eliminatedPlayers := fun hc => hr (Or.inr (Or.inr hc))
    refine ⟨?_, ?_, ?_⟩
    · rw [addPlayer_alive_accepted s u hr]
      refine List.nodup_append.mpr ⟨ha, List.nodup_singleton u, ?_⟩
      intro a haa hau
      rw [List.mem_singleton] at hau
      exact hu1 (hau ▸ haa)
    · rw [addPlayer_eliminated]
      exact he
    · rw [addPlayer_alive_accepted s u hr, addPlayer_eliminated]
      intro a haa
      rw [List.mem_append, List.mem_singleton] at haa
      rcases haa with haa | haa
      · exact hd a haa
      · exact haa ▸ hu2

lemma listsOk_tickEliminate (r : Nat) (s : GameState) (hlen : 0 < s.alivePlayers.length)
    (h : ListsOk s) : ListsOk (tickEliminate r s) := by
  obtain ⟨ha, he, hd⟩ := h
  have hidx : r % s.alivePlayers.length < s.alivePlayers.length := Nat.mod_lt r hlen
  have hpmem : s.alivePlayers.getD (r % s.alivePlayers.length) ("") ∈ s.alivePlayers :=
    getD_mem_of_lt _ _ hidx
  have hpelim : s.alivePlayers.getD (r % s.alivePlayers.length) ("") ∉ s.eliminatedPlayers :=
    hd _ hpmem
  have hsub : ∀ a ∈ s.alivePlayers.eraseIdx (r % s.alivePlayers.length), a ∈ s.alivePlayers :=
    fun a haa => (List.eraseIdx_sublist s.alivePlayers (r % s.alivePlayers.length)).subset haa
  refine ⟨?_, ?_, ?_⟩
  · rw [tickEliminate_alive]
    exact ha.sublist (List.eraseIdx_sublist _ _)
  · rw [tickEliminate_eliminated]
    refine List.nodup_append.mpr ⟨he, List.nodup_singleton _, ?_⟩
    intro a haa hau
    rw [List.mem_singleton] at hau
    exact hpelim (hau ▸ haa)
  · rw [tickEliminate_alive, tickEliminate_eliminated]
    intro a haa
    rw [List.mem_append, List.mem_singleton]
    rintro (hc | hc)
    · exact hd a (hsub a haa) hc
    · exact getD_not_mem_eraseIdx _ _ hidx ha (hc ▸ haa)

lemma listsOk_tick (r : Nat) (s : GameState) (h : ListsOk s) :
    ListsOk (runGameTick r s) := by
  unfold runGameTick
  split_ifs with h1 h2
  · exact h
  · exact h
  · refine listsOk_tickEliminate r s ?_ h
    rw [not_or] at h1
    omega

lemma listsOk_reset (s : GameState) : ListsOk (resetSeason s) :=
  ⟨List.nodup_nil, List.nodup_nil, fun a haa => absurd haa (List.not_mem_nil a)⟩

lemma winnerOk_addPlayer (s : GameState) (u : String) (h : WinnerOk s) :
    WinnerOk ((addPlayer s u).1) := by
  rcases h with h | ⟨w, hw, hmem, hg, hlen⟩
  · left
    rw [addPlayer_winner]
    exact h
  · by_cases hr : joinRejected s u
    · right
      exact ⟨w, by rw [addPlayer_winner]; exact hw,
        by rw [addPlayer_alive_rejected s u hr]; exact hmem,
        by rw [addPlayer_started_rejected s u hr]; exact hg,
        by rw [addPlayer_alive_rejected s u hr]; exact hlen⟩
    · have hnotlong : ¬ 1 < s.alivePlayers.length := by
        intro hc
        exact hr (Or.inl ⟨hg, hc⟩)
      have hone : s.alivePlayers.length = 1 := by
        have : 0 < s.alivePlayers.length := List.length_pos.mpr (by
          intro hc
          rw [hc] at hmem
          simp at hmem)
        omega
      right
      refine ⟨w, by rw [addPlayer_winner]; exact hw, ?_, ?_, ?_⟩
      · rw [addPlayer_alive_accepted s u hr]
        exact List.mem_append_left _ hmem
      · rw [addPlayer_started_accepted s u hr, hg]
        rfl
      · rw [addPlayer_alive_accepted s u hr, List.length_append, List.length_singleton]
        omega

lemma winnerOk_tick (r : Nat) (s : GameState) (h : WinnerOk s) :
    WinnerOk (runGameTick r s) := by
  by_cases h1 : s.gameStarted = false ∨ s.alivePlayers.length = 0
  · rw [runGameTick_noop r s h1]
    exact h
  · rw [not_or] at h1
    obtain ⟨hg0, hl0⟩ := h1
    have hg : s.gameStarted = true := by
      cases hgs : s.gameStarted
      · exact absurd hgs hg0
      · rfl
    by_cases h2 : s.alivePlayers.length = 1
    · rw [runGameTick_win r s hg h2]
      right
      refine ⟨s.alivePlayers.headI, tickWin_winner s, ?_, ?_, ?_⟩
      · rw [tickWin_alive]
        obtain ⟨a, hl⟩ := List.length_eq_one.mp h2
        rw [hl]
        exact List.mem_singleton_self a
      · rw [tickWin_started]
        exact hg
      · rw [tickWin_alive]
        omega
    · have hlen2 : 2 ≤ s.alivePlayers.length := by omega
      rw [runGameTick_elim r s hg hlen2]
      have hidx : r % s.alivePlayers.length < s.alivePlayers.length :=
        Nat.mod_lt r (by omega)
      have herase : (s.alivePlayers.eraseIdx (r % s.alivePlayers.length)).length =
          s.alivePlayers.length - 1 := by
        rw [List.length_eraseIdx]
        simp [hidx]
      by_cases hnew : (s.alivePlayers.eraseIdx (r % s.alivePlayers.length)).length = 1
      · right
        refine ⟨(s.alivePlayers.eraseIdx (r % s.alivePlayers.length)).headI, ?_, ?_, ?_, ?_⟩
        · rw [tickEliminate_winner, if_pos hnew]
        · rw [tickEliminate_alive]
          obtain ⟨a, hl⟩ := List.length_eq_one.mp hnew
          rw [hl]
          exact List.mem_singleton_self a
        · rw [tickEliminate_started]
          exact hg
        · rw [tickEliminate_alive]
          omega
      · rcases h with h | ⟨w, hw, hmem, hgw, hlenw⟩
        · left
          rw [tickEliminate_winner, if_neg hnew]
          exact h
        · omega

lemma winnerOk_reset (s : GameState) : WinnerOk (resetSeason s) := Or.inl rfl

lemma listsOk_applyOps (s : GameState) (ops : List Op) (h : ListsOk s) :
    ListsOk (applyOps s ops) := by
  induction ops generalizing s with
  | nil => exact h
  | cons op t ih =>
    rw [applyOps, List.foldl_cons]
    refine ih (applyOp s op) ?_
    cases op with
    | join u => exact listsOk_addPlayer s u h
    | tick r => exact listsOk_tick r s h
    | reset => exact listsOk_reset s

lemma winnerOk_applyOps (s : GameState) (ops : List Op) (h : WinnerOk s) :
    WinnerOk (applyOps s ops) := by
  induction ops generalizing s with
  | nil => exact h
  | cons op t ih =>
    rw [applyOps, List.foldl_cons]
    refine ih (applyOp s op) ?_
    cases op with
    | join u => exact winnerOk_addPlayer s u h
    | tick r => exact winnerOk_tick r s h
    | reset => exact winnerOk_reset s

lemma listsOk_normalize (x : RawValue) : ListsOk (normalizeState x) :=
  ⟨normAlive_nodup x, normEliminated_nodup x, normAlive_not_mem_eliminated x⟩

lemma gameState_ext (a b : GameState) (h1 : a.season = b.season)
    (h2 : a.gameStarted = b.gameStarted) (h3 : a.alivePlayers = b.alivePlayers)
    (h4 : a.eliminatedPlayers = b.eliminatedPlayers) (h5 : a.winner = b.winner)
    (h6 : a.lastEvent = b.lastEvent) (h7 : a.lastTick = b.lastTick) : a = b := by
  cases a
  cases b
  rw [GameState.mk.injEq]
  exact ⟨h1, h2, h3, h4, h5, h6, h7⟩

/-- C2: normalization is idempotent. Normalizing the serialized form of an
already-normalized state returns the same state, for every decoded input
value x of any shape. -/
theorem normalizeState_idempotent (x : RawValue) :
    normalizeState (stateToRaw (normalizeState x)) = normalizeState x := by
  have halive : normAlive (stateToRaw (normalizeState x)) = (normalizeState x).alivePlayers :=
    normAlive_stateToRaw (normalizeState x) (normAlive_nodup x) (normAlive_ne_empty x)
      (normEliminated_nodup x) (normEliminated_ne_empty x) (normAlive_not_mem_eliminated x)
  have helim : normEliminated (stateToRaw (normalizeState x)) =
      (normalizeState x).eliminatedPlayers :=
    normEliminated_stateToRaw (normalizeState x) (normEliminated_nodup x)
      (normEliminated_ne_empty x)
  refine gameState_ext _ _ ?_ ?_ ?_ ?_ ?_ ?_ ?_
  · show normSeason (stateToRaw (normalizeState x)) = (normalizeState x).season
    rw [normSeason_stateToRaw]
    exact if_pos (normSeason_pos x)
  · exact normGameStarted_stateToRaw _
  · exact halive
  · exact helim
  · show normWinner (stateToRaw (normalizeState x)) = normWinner x
    rw [normWinner, normWinnerRaw_stateToRaw]
    have hproj : (normalizeState x).winner = normWinner x := rfl
    rw [hproj]
    rcases hw : normWinner x with _ | w
    · rfl
    · show (if (w ≠ "" ∧ w ∉ normAlive (stateToRaw (normalizeState x))) then none else some w) =
        some w
      rw [if_neg]
      rintro ⟨hne, hnot⟩
      rw [halive] at hnot
      rcases normWinner_cases x with hc | hc | ⟨w', hc, hmem⟩
      · rw [hw] at hc
        exact Option.noConfusion hc
      · rw [hw] at hc
        exact hne (Option.some_inj.mp hc)
      · rw [hw] at hc
        have hww : w = w' := Option.some_inj.mp hc
        subst hww
        exact hnot hmem
  · exact normLastEvent_stateToRaw _
  · exact normLastTick_stateToRaw _

/-- A normalized state carrying a recorded winner together with three alive
players, used to refute the frozen form of the invariant claim. -/
def cexInvState : GameState :=
  ⟨1, true, [("a"), ("b"), ("c")], [], some ("a"), defaultLastEvent, none⟩

/-- C1 counterexample: the claim quantifies over every normalized state, but
a normalized state may record a winner while three players are alive; one
elimination tick (index 0) then removes the recorded winner from
alivePlayers while the winner field still holds it, so the invariant that
winner is unset or alive does not survive. The first conjunct shows the
starting state is a fixed point of normalizeState. -/
theorem invariants_claim_counterexample :
    normalizeState (stateToRaw cexInvState) = cexInvState ∧
    (applyOps cexInvState [Op.tick 0]).winner = some ("a") ∧
    ("a") ∉ (applyOps cexInvState [Op.tick 0]).alivePlayers := by
  decide

/-- C1 amended: after any sequence of Join, Tick and ResetSeason operations
on a normalized state, alivePlayers and eliminatedPlayers stay
duplicate-free and disjoint; and when the initial normalized state has no
recorded winner, the winner of every reachable state is unset or a member
of alivePlayers. -/
theorem applyOps_invariants (x : RawValue) (ops : List Op) :
    (applyOps (normalizeState x) ops).alivePlayers.Nodup ∧
    (applyOps (normalizeState x) ops).eliminatedPlayers.Nodup ∧
    (applyOps (normalizeState x) ops).alivePlayers.Disjoint
      (applyOps (normalizeState x) ops).eliminatedPlayers ∧
    ((normalizeState x).winner = none →
      (applyOps (normalizeState x) ops).winner = none ∨
        ∃ w, (applyOps (normalizeState x) ops).winner = some w ∧
          w ∈ (applyOps (normalizeState x) ops).alivePlayers) := by
  obtain ⟨ha, he, hd⟩ := listsOk_applyOps (normalizeState x) ops (listsOk_normalize x)
  refine ⟨ha, he, ?_, ?_⟩
  · intro a haa hae
    exact hd a haa hae
  · intro hw
    have hwo := winnerOk_applyOps (normalizeState x) ops (Or.inl hw)
    rcases hwo with h | ⟨w, h1, h2, _, _⟩
    · exact Or.inl h
    · exact Or.inr ⟨w, h1, h2⟩

/-- Witness for the amended C1 theorem on a concrete run: two joins and one
tick starting from the default state. -/
theorem applyOps_invariants_witness :
    (applyOps (normalizeState .null) [Op.join ("a"), Op.join ("b"), Op.tick 0]).alivePlayers.Nodup ∧
    ((applyOps (normalizeState .null) [Op.join ("a"), Op.join ("b"), Op.tick 0]).winner = none ∨
      ∃ w, (applyOps (normalizeState .null) [Op.join ("a"), Op.join ("b"), Op.tick 0]).winner = some w ∧
        w ∈ (applyOps (normalizeState .null) [Op.join ("a"), Op.join ("b"), Op.tick 0]).alivePlayers) := by
  have h := applyOps_invariants .null [Op.join ("a"), Op.join ("b"), Op.tick 0]
  exact ⟨h.1, h.2.2.2 rfl⟩

/-- A started state with one alive player and a set scheduling field, used
against the win-finalization claim. -/
def cexTickWinState : GameState := ⟨1, true, [("a")], [], none, defaultLastEvent, some ("T")⟩

/-- C3 counterexample: ticking a started state with exactly one alive entry
sets the winner, but gameStarted stays true (the claim says started is
cleared) and the scheduling field lastTick keeps its value (the claim says
it is cleared); the state also has no winners history field to record the
season into. -/
theorem tick_win_claim_counterexample :
    (runGameTick 0 cexTickWinState).winner = some ("a") ∧
    (runGameTick 0 cexTickWinState).gameStarted = true ∧
    (runGameTick 0 cexTickWinState).lastTick = some ("T") := by
  decide

/-- C3 amended: on a started state with exactly one alive entry, Tick sets
winner to that entry and rewrites lastEvent, and changes nothing else: no
elimination happens and season, gameStarted, alivePlayers,
eliminatedPlayers and lastTick keep their values (the season cleanup that
clears them is a separately scheduled resetSeason, not part of this call,
and no winners history exists in this variant of the code). -/
theorem tick_single_alive (s : GameState) (r : Nat) (w : String)
    (h1 : s.gameStarted = true) (h2 : s.alivePlayers = [w]) :
    runGameTick r s =
      { s with winner := some w
               lastEvent := ("👑 ") ++ w ++ (" is the winner of Season ")
                 ++ toString s.season ++ ("!") } := by
  rw [runGameTick_win r s h1 (by rw [h2]; rfl)]
  unfold tickWin
  rw [h2]
  rfl

/-- Witness for the amended C3 theorem at a concrete one-alive state. -/
theorem tick_single_alive_witness :
    runGameTick 0 cexTickWinState =
      ⟨1, true, [("a")], [], some ("a"), ("👑 a is the winner of Season 1!"), some ("T")⟩ := by
  rw [tick_single_alive cexTickWinState 0 ("a") rfl rfl]
  decide

/-- C4: on a started state with at least two alive entries, an elimination
tick with chosen index i removes exactly the entry at position i (the rest
keep their relative order), appends it to eliminatedPlayers, and when one
entry remains afterwards the winner is set to that survivor within the
same tick. -/
theorem tick_eliminates_chosen (s : GameState) (i : Nat)
    (h1 : s.gameStarted = true) (h2 : 2 ≤ s.alivePlayers.length)
    (h3 : i < s.alivePlayers.length) :
    (runGameTick i s).alivePlayers = s.alivePlayers.take i ++ s.alivePlayers.drop (i + 1) ∧
    (runGameTick i s).alivePlayers.length = s.alivePlayers.length - 1 ∧
    (runGameTick i s).eliminatedPlayers = s.eliminatedPlayers ++ [s.alivePlayers.get ⟨i, h3⟩] ∧
    ((runGameTick i s).alivePlayers.length = 1 →
      (runGameTick i s).winner = some (runGameTick i s).alivePlayers.headI) := by
  have hmod : i % s.alivePlayers.length = i := Nat.mod_eq_of_lt h3
  rw [runGameTick_elim i s h1 h2]
  have hal : (tickEliminate i s).alivePlayers = s.alivePlayers.eraseIdx i := by
    rw [tickEliminate_alive, hmod]
  have hlen : (s.alivePlayers.eraseIdx i).length = s.alivePlayers.length - 1 := by
    rw [List.length_eraseIdx]
    simp [h3]
  refine ⟨?_, ?_, ?_, ?_⟩
  · rw [hal, List.eraseIdx_eq_take_drop_succ]
  · rw [hal, hlen]
  · rw [tickEliminate_eliminated, hmod, List.getD_eq_getElem s.alivePlayers ("") h3,
      List.get_eq_getElem]
  · intro hone
    rw [hal] at hone
    rw [tickEliminate_winner, hmod, if_pos hone, hal]

/-- A started three-player state used to instantiate the elimination
theorem. -/
def w4State : GameState := ⟨1, true, [("a"), ("b"), ("c")], [], none, defaultLastEvent, none⟩

/-- Witness for C4: eliminating index 1 from three players removes exactly
the middle entry. -/
theorem tick_eliminates_chosen_witness :
    (runGameTick 1 w4State).alivePlayers = [("a"), ("c")] ∧
    (runGameTick 1 w4State).eliminatedPlayers = [("b")] := by
  have h := tick_eliminates_chosen w4State 1 rfl (by decide) (by decide)
  constructor
  · rw [h.1]
    decide
  · rw [h.2.2.1]
    decide

/-- C5: Join rejects, leaving alivePlayers unchanged, exactly when the game
is started with more than one living participant, or the username is
already alive, or it is already eliminated; in every other case it appends
the username to the end of alivePlayers and returns true. -/
theorem addPlayer_accept_reject (s : GameState) (u : String) :
    ((addPlayer s u).2 = false ↔
      ((s.gameStarted = true ∧ 1 < s.alivePlayers.length) ∨ u ∈ s.alivePlayers ∨
        u ∈ s.eliminatedPlayers)) ∧
    (((s.gameStarted = true ∧ 1 < s.alivePlayers.length) ∨ u ∈ s.alivePlayers ∨
        u ∈ s.eliminatedPlayers) → (addPlayer s u).1.alivePlayers = s.alivePlayers) ∧
    (¬ ((s.gameStarted = true ∧ 1 < s.alivePlayers.length) ∨ u ∈ s.alivePlayers ∨
        u ∈ s.eliminatedPlayers) →
      (addPlayer s u).2 = true ∧ (addPlayer s u).1.alivePlayers = s.alivePlayers ++ [u]) :=
  ⟨addPlayer_snd_false_iff s u, addPlayer_alive_rejected s u,
    fun h => ⟨addPlayer_snd_true s u h, addPlayer_alive_accepted s u h⟩⟩

/-- Witness for C5: a duplicate join is rejected and a fresh join is
appended, on a concrete one-player state. -/
theorem addPlayer_accept_reject_witness :
    (addPlayer ⟨1, false, [("a")], [], none, ("e"), none⟩ ("a")).2 = false ∧
    (addPlayer ⟨1, false, [("a")], [], none, ("e"), none⟩ ("b")).1.alivePlayers = [("a"), ("b")] := by
  refine ⟨?_, ?_⟩
  · exact (addPlayer_accept_reject ⟨1, false, [("a")], [], none, ("e"), none⟩ ("a")).1.mpr
      (Or.inr (Or.inl (by decide)))
  · exact ((addPlayer_accept_reject ⟨1, false, [("a")], [], none, ("e"), none⟩ ("b")).2.2
      (by decide)).2

/-- A not-started three-player state used against the claim that a join can
only start the game when it brings alivePlayers to exactly two entries. -/
def cexJoinState : GameState :=
  ⟨1, false, [("a"), ("b"), ("c")], [], none, defaultLastEvent, none⟩

/-- C6 counterexample: joining a fourth player into a not-started state is
accepted and sets gameStarted although alivePlayers reaches four entries,
not exactly two, refuting the claim that started is set only when the join
brings alivePlayers to exactly 2. -/
theorem join_start_claim_counterexample :
    (addPlayer cexJoinState ("d")).2 = true ∧
    (addPlayer cexJoinState ("d")).1.gameStarted = true ∧
    (addPlayer cexJoinState ("d")).1.alivePlayers.length = 4 := by
  decide

/-- C6 amended: an accepted join sets gameStarted exactly when the list
already had at least one entry (so the join leaves at least two) or the
game was already started; a rejected join leaves gameStarted unchanged;
addPlayer never touches the scheduling field lastTick (no arming happens
in this variant); and neither Tick nor ResetSeason ever raises
gameStarted, Tick preserves it and ResetSeason clears it. -/
theorem join_start_trigger (s : GameState) (u : String) (r : Nat) :
    ((addPlayer s u).2 = true →
      (addPlayer s u).1.gameStarted = (s.gameStarted || !s.alivePlayers.isEmpty)) ∧
    ((addPlayer s u).2 = false → (addPlayer s u).1.gameStarted = s.gameStarted) ∧
    (addPlayer s u).1.lastTick = s.lastTick ∧
    (runGameTick r s).gameStarted = s.gameStarted ∧
    (resetSeason s).gameStarted = false := by
  refine ⟨?_, ?_, addPlayer_lastTick s u, runGameTick_started r s, rfl⟩
  · intro h
    have hr : ¬ joinRejected s u := by
      intro hc
      rw [(addPlayer_snd_false_iff s u).mpr hc] at h
      exact Bool.noConfusion h
    exact addPlayer_started_accepted s u hr
  · intro h
    exact addPlayer_started_rejected s u ((addPlayer_snd_false_iff s u).mp h)

/-- Witness for the amended C6 theorem: a second join starts the game on a
concrete one-player state. -/
theorem join_start_trigger_witness :
    (addPlayer ⟨1, false, [("a")], [], none, ("e"), none⟩ ("b")).1.gameStarted = true := by
  have h := join_start_trigger ⟨1, false, [("a")], [], none, ("e"), none⟩ ("b") 0
  rw [h.1 (by decide)]
  decide

/-- A finished-season state with a set scheduling field, used against the
claim that resetSeason clears scheduling fields. -/
def cexResetState : GameState := ⟨3, false, [], [], none, defaultLastEvent, some ("T")⟩

/-- C7 counterexample: resetSeason leaves the scheduling field lastTick
untouched instead of clearing it. -/
theorem reset_claim_counterexample :
    (resetSeason cexResetState).lastTick = some ("T") := by
  decide

/-- C7 amended: resetSeason increments season by exactly one, clears
gameStarted, empties both player lists, unsets winner, and leaves the
scheduling field lastTick unchanged; there is no winners history field in
this variant, so nothing beyond the listed fields and lastEvent changes. -/
theorem resetSeason_spec (s : GameState) :
    (resetSeason s).season = s.season + 1 ∧
    (resetSeason s).gameStarted = false ∧
    (resetSeason s).alivePlayers = [] ∧
    (resetSeason s).eliminatedPlayers = [] ∧
    (resetSeason s).winner = none ∧
    (resetSeason s).lastTick = s.lastTick :=
  ⟨rfl, rfl, rfl, rfl, rfl, rfl⟩

/-- C8 counterexample: normalizing an object whose winner field is the
empty string keeps winner set to some empty string although alivePlayers
is empty, so the normalized winner is neither unset nor an alive player
(the JS truthiness test skips the winner-clearing for the empty string). -/
theorem normalize_winner_claim_counterexample :
    (normalizeState (.obj [(("winner"), .str (""))])).winner = some ("") ∧
    (normalizeState (.obj [(("winner"), .str (""))])).alivePlayers = [] := by
  decide

/-- C8 amended: normalizeState is a total function, its season is a
positive integer defaulting to 1, its two player lists are duplicate-free
and disjoint, and its winner is unset, the empty string, or a member of
alivePlayers; the code has no winners history field to constrain. -/
theorem normalizeState_safety (x : RawValue) :
    0 < (normalizeState x).season ∧
    (normalizeState x).alivePlayers.Nodup ∧
    (normalizeState x).eliminatedPlayers.Nodup ∧
    (normalizeState x).alivePlayers.Disjoint (normalizeState x).eliminatedPlayers ∧
    ((normalizeState x).winner = none ∨ (normalizeState x).winner = some ("") ∨
      ∃ w, (normalizeState x).winner = some w ∧ w ∈ (normalizeState x).alivePlayers) := by
  refine ⟨normSeason_pos x, normAlive_nodup x, normEliminated_nodup x, ?_, normWinner_cases x⟩
  intro a ha hae
  exact normAlive_not_mem_eliminated x a ha hae

/-- Witness for the amended C8 theorem at the null input. -/
theorem normalizeState_safety_witness :
    0 < (normalizeState RawValue.null).season ∧
    (normalizeState RawValue.null).alivePlayers.Nodup :=
  ⟨(normalizeState_safety RawValue.null).1, (normalizeState_safety RawValue.null).2.1⟩

/-- C9 counterexample: a stored alivePlayers array holding the empty string
(a string-typed value) normalizes to the empty list: the falsy empty
string is dropped by addUnique, contradicting the claim that exactly the
string-typed values are kept. -/
theorem normalize_list_claim_counterexample :
    rawListField (.obj [(("alivePlayers"), .arr [.str ("")])]) ("alivePlayers") = [.str ("")] ∧
    (normalizeState (.obj [(("alivePlayers"), .arr [.str ("")])])).alivePlayers = [] :=
  ⟨rfl, by decide⟩

/-- C9 amended: normalization copies each stored list in order keeping
exactly the nonempty string-typed values, deduplicates keeping first
occurrences, and removes from alive every identifier present in
eliminated; membership in the normalized alive list is equivalent to being
a nonempty string entry of the stored array that is not eliminated. -/
theorem normalize_lists_spec (x : RawValue) :
    (normalizeState x).eliminatedPlayers =
      specDedupFirst (specNonEmptyStrings (rawListField x ("eliminatedPlayers"))) ∧
    (normalizeState x).alivePlayers =
      (specDedupFirst (specNonEmptyStrings (rawListField x ("alivePlayers")))).filter
        (fun p => !(normalizeState x).eliminatedPlayers.contains p) ∧
    ∀ a, a ∈ (normalizeState x).alivePlayers ↔
      (a ∈ specNonEmptyStrings (rawListField x ("alivePlayers")) ∧
        a ∉ (normalizeState x).eliminatedPlayers) := by
  refine ⟨normEliminated_eq x, normAlive_eq x, ?_⟩
  intro a
  show a ∈ normAlive x ↔ _
  rw [normAlive_eq x, List.mem_filter, mem_specDedupFirst]
  constructor
  · rintro ⟨hm, hc⟩
    refine ⟨hm, ?_⟩
    simpa using hc
  · rintro ⟨hm, hc⟩
    refine ⟨hm, ?_⟩
    simpa using hc

/-- Witness for the amended C9 theorem: duplicates collapse and the
eliminated entry is removed from alive on a concrete stored document. -/
theorem normalize_lists_spec_witness :
    (normalizeState (.obj
      [ (("alivePlayers"), .arr [.str ("a"), .str ("a"), .str ("b")])
      , (("eliminatedPlayers"), .arr [.str ("b")]) ])).alivePlayers = [("a")] := by
  have h := normalize_lists_spec (.obj
    [ (("alivePlayers"), .arr [.str ("a"), .str ("a"), .str ("b")])
    , (("eliminatedPlayers"), .arr [.str ("b")]) ])
  rw [h.2.1]
  decide

/-- C10: a rejected join leaves every field except lastEvent unchanged. -/
theorem addPlayer_rejected_frame (s : GameState) (u : String)
    (h : (addPlayer s u).2 = false) :
    (addPlayer s u).1.season = s.season ∧
    (addPlayer s u).1.gameStarted = s.gameStarted ∧
    (addPlayer s u).1.alivePlayers = s.alivePlayers ∧
    (addPlayer s u).1.eliminatedPlayers = s.eliminatedPlayers ∧
    (addPlayer s u).1.winner = s.winner ∧
    (addPlayer s u).1.lastTick = s.lastTick := by
  have hr := (addPlayer_snd_false_iff s u).mp h
  exact ⟨addPlayer_season s u, addPlayer_started_rejected s u hr,
    addPlayer_alive_rejected s u hr, addPlayer_eliminated s u,
    addPlayer_winner s u, addPlayer_lastTick s u⟩

/-- Witness for C10 at a concrete started two-player state rejecting a
late join. -/
theorem addPlayer_rejected_frame_witness :
    (addPlayer ⟨1, true, [("a"), ("b")], [], none, ("e"), some ("T")⟩ ("c")).1.alivePlayers
      = [("a"), ("b")] :=
  (addPlayer_rejected_frame ⟨1, true, [("a"), ("b")], [], none, ("e"), some ("T")⟩ ("c")
    (by decide)).2.2.1

end GithubWars
